import Mathlib

set_option linter.unusedVariables false

/-! Shallow embedding of the `AT_CellularStack` socket adapter declared in
src/features/cellular/framework/AT/AT_CellularStack.h of the mbed-os
repository.  The header gives the per-socket record `CellularSocket`, the
adapter's socket operations and the modem-specific hook set
(get_max_socket_count, get_max_packet_size, is_protocol_supported,
socket_close_impl, create_socket_impl, socket_sendto_impl,
socket_recvfrom_impl).  The bodies of the adapter operations are not part
of the sources (only their declarations are), so each operation below is
modelled from the specification (spec.md §3–§7) and marked as such. -/

/-- Success code of the nsapi error taxonomy (`nsapi_error_t`). -/
def NSAPI_ERROR_OK : Int := 0

/-- Transient non-readiness: the distinct would-block result. -/
def NSAPI_ERROR_WOULD_BLOCK : Int := -3001

/-- Capability mismatch: unsupported operation or option. -/
def NSAPI_ERROR_UNSUPPORTED : Int := -3002

/-- State violation: the operation requires a connected slot. -/
def NSAPI_ERROR_NO_CONNECTION : Int := -3004

/-- Resource exhaustion: no free socket slot / protocol unavailable. -/
def NSAPI_ERROR_NO_SOCKET : Int := -3005

/-- Device or command-channel failure. -/
def NSAPI_ERROR_DEVICE_ERROR : Int := -3012

/-- Protocol type `nsapi_protocol_t` used by `socket_open`. -/
inductive nsapi_protocol_t where
  | NSAPI_TCP
  | NSAPI_UDP
deriving DecidableEq, Repr

/-- Endpoint record (address + port), abstracting the `SocketAddress`
class used by the adapter for remote and local endpoints. -/
structure SocketAddress where
  addr : Nat
  port : Nat
deriving DecidableEq, Repr

/-- Per-socket state record, mirroring class `CellularSocket` of
AT_CellularStack.h: device-assigned `id`, `connected`, protocol `proto`,
`remoteAddress`, `localAddress`, the registered callback (the `_cb` and
`_data` pair, modelled as one opaque token `cb`), `created`, and the
data-availability flag `rx_avail`. -/
structure CellularSocket where
  id : Int
  connected : Bool
  proto : nsapi_protocol_t
  remoteAddress : Option SocketAddress
  localAddress : Option SocketAddress
  cb : Option Nat
  created : Bool
  rx_avail : Bool
deriving DecidableEq, Repr

/-- Device-hook invocations that talk to the modem over the serialized
command channel (spec.md §5: create, destroy and transfer operations each
acquire exclusive use of the channel for one command/response exchange).
A recorded call names the hook and its arguments. -/
inductive HookCall where
  | create (proto : nsapi_protocol_t)
  | close (sock_id : Int)
  | sendto (sock_id : Int) (size : Nat)
  | recvfrom (sock_id : Int) (size : Nat)
deriving DecidableEq, Repr

/-- Modelled from the spec: the device hook set of AT_CellularStack.h
(§4.2), implemented per modem family and consumed by the adapter.
`get_max_socket_count` and `get_max_packet_size` are the capability
queries, `is_protocol_supported` the protocol predicate,
`socket_close_impl` returns a teardown status code (0 on success) and
`create_socket_impl` either an error code or the device-side id. -/
structure DeviceHooks where
  get_max_socket_count : Nat
  get_max_packet_size : Nat
  is_protocol_supported : nsapi_protocol_t → Bool
  socket_close_impl : Int → Int
  create_socket_impl : nsapi_protocol_t → Except Int Int

/-- Slot table of the adapter (`CellularSocket **_socket` with
`_socket_count` slots): a fixed-length list of optional slot records,
where `none` is a free slot and the list index is the opaque handle. -/
abbrev State : Type := List (Option CellularSocket)

/-- Slot lookup by handle; out-of-range handles and free slots both read
as `none` (an invalid handle). -/
def getSlot : State → Nat → Option CellularSocket
  | [], _ => none
  | o :: _, 0 => o
  | _ :: rest, n + 1 => getSlot rest n

/-- Slot update by handle; out-of-range handles leave the table unchanged. -/
def setSlot : State → Nat → Option CellularSocket → State
  | [], _, _ => []
  | _ :: rest, 0, v => v :: rest
  | o :: rest, n + 1, v => o :: setSlot rest n v

/-- Modelled from the spec: the slot record reserved by `socket_open`
(§4.1): device creation deferred (`created = false`), not connected, no
endpoints, no callback, no pending data. -/
def freshSocket (proto : nsapi_protocol_t) : CellularSocket :=
  { id := -1, connected := false, proto := proto, remoteAddress := none,
    localAddress := none, cb := none, created := false, rx_avail := false }

/-- Initial slot table: `get_max_socket_count` free slots (§4.1: slot
count bounded by the capability query result). -/
def initState (H : DeviceHooks) : State :=
  List.replicate H.get_max_socket_count none

/-- Index of the first free slot, if any. -/
def findFreeIdx : State → Option Nat
  | [] => none
  | none :: _ => some 0
  | some _ :: rest => (findFreeIdx rest).map (· + 1)

/-- Result of `socket_open`: status code, the handle written through the
out-parameter on success, the successor table state, and the device-hook
calls performed. -/
structure OpenResult where
  code : Int
  handle : Option Nat
  st : State
  calls : List HookCall

/-- Result of the other adapter operations: returned code or byte count,
successor table state, and the device-hook calls performed (each hook
call is one exclusive acquisition of the command channel). -/
structure OpResult where
  ret : Int
  st : State
  calls : List HookCall

/-- Modelled from the spec: `socket_open` (§4.1).  Fails with `NoSocket`
if the protocol is unsupported per the capability query or no free slot
exists; on success reserves the first free slot with `created = false`
and returns its index as the opaque handle.  Device-side creation is
deferred, so no hook is called. -/
def socket_open (H : DeviceHooks) (st : State) (proto : nsapi_protocol_t) : OpenResult :=
  if H.is_protocol_supported proto then
    match findFreeIdx st with
    | some i => ⟨NSAPI_ERROR_OK, some i, setSlot st i (some (freshSocket proto)), []⟩
    | none => ⟨NSAPI_ERROR_NO_SOCKET, none, st, []⟩
  else ⟨NSAPI_ERROR_NO_SOCKET, none, st, []⟩

/-- Modelled from the spec: `socket_close` (§4.1).  Invokes the device
teardown hook `socket_close_impl` if the slot is `created`; always frees
the slot afterwards, even if teardown fails; returns the teardown error
code if any, otherwise success.  An invalid handle is a device error. -/
def socket_close (H : DeviceHooks) (st : State) (h : Nat) : OpResult :=
  match getSlot st h with
  | none => ⟨NSAPI_ERROR_DEVICE_ERROR, st, []⟩
  | some s =>
    if s.created then
      ⟨H.socket_close_impl s.id, setSlot st h none, [HookCall.close s.id]⟩
    else
      ⟨NSAPI_ERROR_OK, setSlot st h none, []⟩

/-- Modelled from the spec: `socket_bind` (§4.1).  Records the local
endpoint only; does not contact the device. -/
def socket_bind (H : DeviceHooks) (st : State) (h : Nat) (address : SocketAddress) : OpResult :=
  match getSlot st h with
  | none => ⟨NSAPI_ERROR_DEVICE_ERROR, st, []⟩
  | some s => ⟨NSAPI_ERROR_OK, setSlot st h (some { s with localAddress := some address }), []⟩

/-- Modelled from the spec: `socket_connect` (§4.1).  Triggers device-side
creation via `create_socket_impl` if the slot is not already created;
sets `connected = true` and stores the remote address only on success;
on a creation failure the table is left unchanged and the hook's error is
returned. -/
def socket_connect (H : DeviceHooks) (st : State) (h : Nat) (address : SocketAddress) : OpResult :=
  match getSlot st h with
  | none => ⟨NSAPI_ERROR_DEVICE_ERROR, st, []⟩
  | some s =>
    if s.created then
      ⟨NSAPI_ERROR_OK,
       setSlot st h (some { s with connected := true, remoteAddress := some address }), []⟩
    else
      match H.create_socket_impl s.proto with
      | Except.error e => ⟨e, st, [HookCall.create s.proto]⟩
      | Except.ok devid =>
        let s2 := { s with id := devid, created := true, connected := true,
                           remoteAddress := some address }
        ⟨NSAPI_ERROR_OK, setSlot st h (some s2), [HookCall.create s.proto]⟩

/-- Modelled from the spec: the fragmentation loop of `socket_sendto`
(§4.2, §8).  A buffer larger than `get_max_packet_size` is split into
hook calls of at most that size; the returned byte counts of the
successive `socket_sendto_impl` invocations are supplied as the list
`responses` (the hook is external, implemented per modem family).  The
loop accumulates the returned counts and stops, returning the partial
count, when a fragment returns less than requested or an error; an error
on the very first fragment is propagated.  Returns the total together
with the hook calls performed. -/
def sendto_fragments (maxPkt : Nat) (sock_id : Int) :
    List Int → Nat → Nat → Int × List HookCall
  | _, 0, acc => (Int.ofNat acc, [])
  | [], _ + 1, acc =>
    if 0 < acc then (Int.ofNat acc, []) else (NSAPI_ERROR_DEVICE_ERROR, [])
  | r :: rest, n + 1, acc =>
    let chunk := min maxPkt (n + 1)
    if r < (chunk : Int) then
      if r < 0 then
        if 0 < acc then (Int.ofNat acc, [HookCall.sendto sock_id chunk])
        else (r, [HookCall.sendto sock_id chunk])
      else (Int.ofNat (acc + r.toNat), [HookCall.sendto sock_id chunk])
    else
      let next := sendto_fragments maxPkt sock_id rest (n + 1 - chunk) (acc + r.toNat)
      (next.1, HookCall.sendto sock_id chunk :: next.2)

/-- Modelled from the spec: the device-facing core shared by
`socket_sendto` and `socket_send`: lazily creates the device-side socket
on first use (§4.1), then runs the fragmentation loop. -/
def sendto_core (H : DeviceHooks) (st : State) (h : Nat) (s : CellularSocket)
    (size : Nat) (responses : List Int) : OpResult :=
  if s.created then
    let out := sendto_fragments H.get_max_packet_size s.id responses size 0
    ⟨out.1, st, out.2⟩
  else
    match H.create_socket_impl s.proto with
    | Except.error e => ⟨e, st, [HookCall.create s.proto]⟩
    | Except.ok devid =>
      let s2 := { s with id := devid, created := true }
      let out := sendto_fragments H.get_max_packet_size devid responses size 0
      ⟨out.1, setSlot st h (some s2), HookCall.create s.proto :: out.2⟩

/-- Modelled from the spec: `socket_sendto` (§4.1), the connectionless
variant; does not require `connected`. -/
def socket_sendto (H : DeviceHooks) (st : State) (h : Nat) (address : SocketAddress)
    (size : Nat) (responses : List Int) : OpResult :=
  match getSlot st h with
  | none => ⟨NSAPI_ERROR_DEVICE_ERROR, st, []⟩
  | some s => sendto_core H st h s size responses

/-- Modelled from the spec: `socket_send` (§4.1).  Requires `connected`
(a state violation is reported immediately, with no hook call); when
connected, delegates to the device-facing core with the stored remote
address. -/
def socket_send (H : DeviceHooks) (st : State) (h : Nat)
    (size : Nat) (responses : List Int) : OpResult :=
  match getSlot st h with
  | none => ⟨NSAPI_ERROR_DEVICE_ERROR, st, []⟩
  | some s =>
    if s.connected then sendto_core H st h s size responses
    else ⟨NSAPI_ERROR_NO_CONNECTION, st, []⟩

/-- Modelled from the spec: what one `socket_recvfrom_impl` poll reports
(§4.2 transfer-in): delivered bytes together with whether more data is
still pending, nothing to deliver, or a device error code. -/
inductive RecvResult where
  | data (n : Nat) (morePending : Bool)
  | nothingPending
  | error (code : Int)
deriving DecidableEq, Repr

/-- Modelled from the spec: `socket_recv` (§4.1).  Requires `connected`;
even when `rx_avail` is false it still performs one hook poll (the flag
is a scheduling hint, not a gate); returns the distinct would-block
result when the hook has nothing to deliver and clears `rx_avail`
whenever the hook reports no more pending data. -/
def socket_recv (st : State) (h : Nat) (size : Nat) (resp : RecvResult) : OpResult :=
  match getSlot st h with
  | none => ⟨NSAPI_ERROR_DEVICE_ERROR, st, []⟩
  | some s =>
    if s.connected then
      match resp with
      | RecvResult.error c => ⟨c, st, [HookCall.recvfrom s.id size]⟩
      | RecvResult.nothingPending =>
        ⟨NSAPI_ERROR_WOULD_BLOCK, setSlot st h (some { s with rx_avail := false }),
         [HookCall.recvfrom s.id size]⟩
      | RecvResult.data n more =>
        let s2 := { s with rx_avail := if more then s.rx_avail else false }
        ⟨Int.ofNat n, setSlot st h (some s2), [HookCall.recvfrom s.id size]⟩
    else ⟨NSAPI_ERROR_NO_CONNECTION, st, []⟩

/-- Modelled from the spec: `socket_attach` (§4.1): stores the
callback/context pair (overwrite semantics); no device interaction. -/
def socket_attach (st : State) (h : Nat) (tok : Nat) : State × List HookCall :=
  match getSlot st h with
  | none => (st, [])
  | some s => (setSlot st h (some { s with cb := some tok }), [])

/-- Modelled from the spec: asynchronous data-availability notification
delivery from the constrained (interrupt-like) context (§5): it only
raises the slot's `rx_avail` flag and yields the callback registered via
`socket_attach` for invocation; it performs no device-hook call, hence
never acquires the serialized command channel. -/
def notify_data_available (st : State) (h : Nat) :
    State × Option Nat × List HookCall :=
  match getSlot st h with
  | none => (st, none, [])
  | some s => (setSlot st h (some { s with rx_avail := true }), s.cb, [])

/-- Iterated `socket_open`: the state and the list of (code, handle)
outcomes after `n` successive open calls starting from the initial table. -/
def openN (H : DeviceHooks) (proto : nsapi_protocol_t) : Nat → State × List (Int × Option Nat)
  | 0 => (initState H, [])
  | n + 1 =>
    let prev := openN H proto n
    let r := socket_open H prev.1 proto
    (r.st, prev.2 ++ [(r.code, r.handle)])

/-- Buffer size of the adapter's IP address field `_ip`
(`#define PDP_IPV6_SIZE 63+1` in AT_CellularStack.h). -/
def PDP_IPV6_SIZE : Nat := 63 + 1

/-- Size of the `char _ip[PDP_IPV6_SIZE]` member of AT_CellularStack. -/
def ip_buffer_size : Nat := PDP_IPV6_SIZE

/-- Longest textual IPv6 form in the dot-separated decimal notation of
the header's comment: sixteen groups, each at most three digits
(`a1.a2. ... .a16` with every group `255`). -/
def ipv6_dotted_decimal_max : String :=
  String.intercalate "." (List.replicate 16 "255")

/-- Longest textual IPv4 dotted-quad. -/
def ipv4_dotted_quad_max : String :=
  String.intercalate "." (List.replicate 4 "255")

/-- Concrete device hooks used by the witnesses: two slots, packet size
five, every protocol supported, teardown always succeeds, creation
yields device id 0. -/
def wHooks : DeviceHooks :=
  ⟨2, 5, fun _ => true, fun _ => NSAPI_ERROR_OK, fun _ => Except.ok 0⟩

/-- Concrete device hooks whose teardown hook always fails, for the C2
counterexample. -/
def failCloseHooks : DeviceHooks :=
  ⟨1, 5, fun _ => true, fun _ => NSAPI_ERROR_DEVICE_ERROR, fun _ => Except.ok 0⟩

/-- Concrete one-slot device hooks for the C7 counterexample. -/
def oneSlotHooks : DeviceHooks :=
  ⟨1, 5, fun _ => true, fun _ => NSAPI_ERROR_OK, fun _ => Except.ok 0⟩

/-- Concrete created (device-side) socket record for witnesses. -/
def wCreatedSock : CellularSocket :=
  { id := 0, connected := false, proto := nsapi_protocol_t.NSAPI_UDP,
    remoteAddress := none, localAddress := none, cb := none,
    created := true, rx_avail := false }

/-- Concrete connected TCP socket record (with `rx_avail = false`) for
the recv witnesses. -/
def wConnSock : CellularSocket :=
  { id := 1, connected := true, proto := nsapi_protocol_t.NSAPI_TCP,
    remoteAddress := some ⟨10, 80⟩, localAddress := none, cb := none,
    created := true, rx_avail := false }

/-- Concrete reserved, never-connected TCP socket record. -/
def wTcpFresh : CellularSocket := freshSocket nsapi_protocol_t.NSAPI_TCP

/-- Per-slot invariant exactly as the specification's invariant section
states it (§3): a slot is entirely unused, or `created` with a valid
(non-negative) device id. -/
def origSlotInvariant : Option CellularSocket → Bool
  | none => true
  | some s => s.created && decide (0 ≤ s.id)

/-- Amended per-slot invariant: a free slot, or an allocated slot where
`connected` implies `created` and `created` implies a valid device id
(reserved slots with `created = false` are allowed, matching the
Free → Reserved → Created lifecycle of §4.1). -/
def slotOk : Option CellularSocket → Prop
  | none => True
  | some s => (s.connected = true → s.created = true) ∧ (s.created = true → 0 ≤ s.id)

/-- Table-wide invariant: every slot satisfies the per-slot invariant. -/
def StateInv (st : State) : Prop := ∀ o ∈ st, slotOk o

/-- Protocol immutability between two table states: any slot occupied in
both keeps its protocol. -/
def ProtoPreserved (st st2 : State) : Prop :=
  ∀ h s s2, getSlot st h = some s → getSlot st2 h = some s2 → s2.proto = s.proto

/-- Well-formedness of a device-hook implementation: creation errors are
negative codes (the nsapi convention) and successful creation yields a
valid (non-negative) device id. -/
def WfHooks (H : DeviceHooks) : Prop :=
  (∀ p e, H.create_socket_impl p = Except.error e → e < 0) ∧
  (∀ p devid, H.create_socket_impl p = Except.ok devid → 0 ≤ devid)

/-! Helper lemmas about the slot table. -/

theorem getSlot_setSlot_self : ∀ (st : State) (i : Nat) (v : Option CellularSocket),
    i < st.length → getSlot (setSlot st i v) i = v := by
  intro st
  induction st with
  | nil => intro i v hi; exact absurd hi (Nat.not_lt_zero i)
  | cons o rest ih =>
    intro i v hi
    cases i with
    | zero => rfl
    | succ n => exact ih n v (Nat.lt_of_succ_lt_succ hi)

theorem getSlot_setSlot_ne : ∀ (st : State) (i j : Nat) (v : Option CellularSocket),
    i ≠ j → getSlot (setSlot st i v) j = getSlot st j := by
  intro st
  induction st with
  | nil => intro i j v _; cases i <;> rfl
  | cons o rest ih =>
    intro i j v hij
    cases i with
    | zero =>
      cases j with
      | zero => exact absurd rfl hij
      | succ m => rfl
    | succ n =>
      cases j with
      | zero => rfl
      | succ m => exact ih n m v (fun he => hij (congrArg Nat.succ he))

theorem getSlot_lt_length : ∀ (st : State) (h : Nat) (s : CellularSocket),
    getSlot st h = some s → h < st.length := by
  intro st
  induction st with
  | nil => intro h s hs; cases h <;> exact absurd hs (by simp [getSlot])
  | cons o rest ih =>
    intro h s hs
    cases h with
    | zero => exact Nat.zero_lt_succ _
    | succ n => exact Nat.succ_lt_succ (ih n s hs)

theorem length_setSlot : ∀ (st : State) (i : Nat) (v : Option CellularSocket),
    (setSlot st i v).length = st.length := by
  intro st
  induction st with
  | nil => intro i v; rfl
  | cons o rest ih =>
    intro i v
    cases i with
    | zero => rfl
    | succ n => exact congrArg Nat.succ (ih n v)

theorem findFreeIdx_replicate_some_append (s : CellularSocket) :
    ∀ (j : Nat) (rest : State),
      findFreeIdx (List.replicate j (some s) ++ rest) = (findFreeIdx rest).map (· + j) := by
  intro j
  induction j with
  | zero =>
    intro rest
    cases hfr : findFreeIdx rest <;> simp [List.replicate, hfr]
  | succ n ih =>
    intro rest
    have : List.replicate (n + 1) (some s) ++ rest = some s :: (List.replicate n (some s) ++ rest) := by
      simp [List.replicate_succ]
    rw [this]
    show (findFreeIdx (List.replicate n (some s) ++ rest)).map (· + 1) = _
    rw [ih rest]
    cases hfr : findFreeIdx rest <;> simp [Nat.add_assoc]

theorem findFreeIdx_replicate_none (k : Nat) (hk : 0 < k) :
    findFreeIdx (List.replicate k none) = some 0 := by
  cases k with
  | zero => exact absurd hk (Nat.lt_irrefl 0)
  | succ n => simp [List.replicate_succ, findFreeIdx]

theorem setSlot_replicate_append (s : CellularSocket) :
    ∀ (j m : Nat), j < m →
      setSlot (List.replicate j (some s) ++ List.replicate (m - j) none) j (some s)
        = List.replicate (j + 1) (some s) ++ List.replicate (m - (j + 1)) none := by
  intro j
  induction j with
  | zero =>
    intro m hm
    cases m with
    | zero => exact absurd hm (Nat.lt_irrefl 0)
    | succ k => simp [List.replicate_succ, setSlot]
  | succ n ih =>
    intro m hm
    cases m with
    | zero => exact absurd hm (Nat.not_lt_zero _)
    | succ k =>
      have hnk : n < k := Nat.lt_of_succ_lt_succ hm
      have h1 : List.replicate (n + 1) (some s) ++ List.replicate (Nat.succ k - (n + 1)) none
          = some s :: (List.replicate n (some s) ++ List.replicate (k - n) none) := by
        simp [List.replicate_succ, Nat.succ_sub_succ]
      rw [h1]
      show some s :: setSlot (List.replicate n (some s) ++ List.replicate (k - n) none) n (some s) = _
      rw [ih k hnk]
      simp [List.replicate_succ, Nat.succ_sub_succ]

/-- Slot table reached after `j` successful opens of the same protocol
from the initial table: the first `j` slots reserved, the rest free. -/
def stateAfterOpenN (H : DeviceHooks) (proto : nsapi_protocol_t) (j : Nat) : State :=
  List.replicate j (some (freshSocket proto)) ++
    List.replicate (H.get_max_socket_count - j) none

theorem openN_eq (H : DeviceHooks) (proto : nsapi_protocol_t)
    (hsup : H.is_protocol_supported proto = true) :
    ∀ j, j ≤ H.get_max_socket_count →
      openN H proto j
        = (stateAfterOpenN H proto j,
           (List.range j).map (fun i => (NSAPI_ERROR_OK, some i))) := by
  intro j
  induction j with
  | zero =>
    intro _
    simp [openN, stateAfterOpenN, initState]
  | succ n ih =>
    intro hle
    have hn : n ≤ H.get_max_socket_count := Nat.le_of_succ_le hle
    have hlt : n < H.get_max_socket_count := Nat.lt_of_succ_le hle
    have hpos : 0 < H.get_max_socket_count - n := Nat.sub_pos_of_lt hlt
    have hfree : findFreeIdx (stateAfterOpenN H proto n) = some n := by
      unfold stateAfterOpenN
      rw [findFreeIdx_replicate_some_append, findFreeIdx_replicate_none _ hpos]
      simp
    have hopen : socket_open H (stateAfterOpenN H proto n) proto
        = ⟨NSAPI_ERROR_OK, some n, stateAfterOpenN H proto (n + 1), []⟩ := by
      unfold socket_open
      rw [hsup, hfree]
      simp only [if_true]
      unfold stateAfterOpenN
      rw [setSlot_replicate_append _ n H.get_max_socket_count hlt]
    show (let prev := openN H proto n
          let r := socket_open H prev.1 proto
          (r.st, prev.2 ++ [(r.code, r.handle)])) = _
    rw [ih hn]
    simp only [hopen, List.range_succ, List.map_append]
    rfl

/-- C1: for every sequence of `socket_open` calls up to
`get_max_socket_count`, each call succeeds (code `NSAPI_ERROR_OK`) and
returns a handle distinct from every other outstanding handle (the
returned handles are exactly 0, 1, …, pairwise distinct); the next
`socket_open` beyond that maximum fails with `NSAPI_ERROR_NO_SOCKET`,
and any `socket_open` with a protocol for which `is_protocol_supported`
is false fails with `NSAPI_ERROR_NO_SOCKET` as well. -/
theorem c1_open_sequence_and_exhaustion (H : DeviceHooks) (proto : nsapi_protocol_t)
    (hsup : H.is_protocol_supported proto = true) :
    (∀ j, j ≤ H.get_max_socket_count →
      (openN H proto j).2 = (List.range j).map (fun i => (NSAPI_ERROR_OK, some i)) ∧
      ((openN H proto j).2.map Prod.snd).Nodup) ∧
    (socket_open H (openN H proto H.get_max_socket_count).1 proto).code
      = NSAPI_ERROR_NO_SOCKET ∧
    (∀ (H2 : DeviceHooks) (st : State) (p : nsapi_protocol_t),
      H2.is_protocol_supported p = false →
      (socket_open H2 st p).code = NSAPI_ERROR_NO_SOCKET) := by
  refine ⟨?_, ?_, ?_⟩
  · intro j hj
    have heq := openN_eq H proto hsup j hj
    constructor
    · rw [heq]
    · rw [heq]
      simp only [List.map_map]
      have : (Prod.snd ∘ fun i => ((NSAPI_ERROR_OK : Int), some i))
          = fun (i : Nat) => some i := rfl
      rw [this]
      exact (List.nodup_range j).map (Option.some_injective Nat)
  · have heq := openN_eq H proto hsup H.get_max_socket_count (Nat.le_refl _)
    rw [heq]
    have hfull : stateAfterOpenN H proto H.get_max_socket_count
        = List.replicate H.get_max_socket_count (some (freshSocket proto)) ++ [] := by
      unfold stateAfterOpenN
      rw [Nat.sub_self]
      rfl
    have hnone : findFreeIdx (stateAfterOpenN H proto H.get_max_socket_count) = none := by
      rw [hfull, findFreeIdx_replicate_some_append]
      rfl
    show (socket_open H (stateAfterOpenN H proto H.get_max_socket_count) proto).code = _
    unfold socket_open
    rw [hsup, hnone]
    rfl
  · intro H2 st p hp
    unfold socket_open
    rw [hp]
    rfl

theorem c1_open_sequence_and_exhaustion_witness :
    (openN wHooks nsapi_protocol_t.NSAPI_UDP 2).2
      = (List.range 2).map (fun i => (NSAPI_ERROR_OK, some i)) ∧
    (socket_open wHooks (openN wHooks nsapi_protocol_t.NSAPI_UDP 2).1
        nsapi_protocol_t.NSAPI_UDP).code = NSAPI_ERROR_NO_SOCKET :=
  ⟨((c1_open_sequence_and_exhaustion wHooks nsapi_protocol_t.NSAPI_UDP rfl).1
      2 (by decide)).1,
   (c1_open_sequence_and_exhaustion wHooks nsapi_protocol_t.NSAPI_UDP rfl).2.1⟩

/-- C10: the adapter's IP buffer `_ip` has size `PDP_IPV6_SIZE = 63+1`,
which is exactly the length of the longest dot-separated decimal IPv6
textual form of the header's comment (sixteen three-digit groups plus
fifteen dots = 63 characters) plus the terminator, and also covers the
longest IPv4 dotted-quad plus terminator. -/
theorem c10_ip_buffer_size_exact :
    ip_buffer_size = PDP_IPV6_SIZE ∧
    ipv6_dotted_decimal_max.length = 16 * 3 + 15 ∧
    ipv6_dotted_decimal_max.length + 1 = PDP_IPV6_SIZE ∧
    ipv4_dotted_quad_max.length + 1 ≤ PDP_IPV6_SIZE := by
  refine ⟨rfl, by decide, by decide, by decide⟩

theorem findFreeIdx_isSome_of_free : ∀ (st : State) (h : Nat),
    h < st.length → getSlot st h = none → (findFreeIdx st).isSome := by
  intro st
  induction st with
  | nil => intro h hl _; exact absurd hl (Nat.not_lt_zero h)
  | cons o rest ih =>
    intro h hl hfree
    cases h with
    | zero =>
      cases o with
      | none => rfl
      | some s => exact absurd hfree (by simp [getSlot])
    | succ n =>
      cases o with
      | none => rfl
      | some s =>
        have := ih n (Nat.lt_of_succ_lt_succ hl) hfree
        show ((findFreeIdx rest).map (· + 1)).isSome
        cases hfr : findFreeIdx rest with
        | none => rw [hfr] at this; exact absurd this (by simp)
        | some k => simp [hfr]

theorem socket_open_succeeds_of_free (H : DeviceHooks) (st : State)
    (proto : nsapi_protocol_t) (h : Nat)
    (hl : h < st.length) (hfree : getSlot st h = none)
    (hsup : H.is_protocol_supported proto = true) :
    (socket_open H st proto).code = NSAPI_ERROR_OK := by
  have hsome := findFreeIdx_isSome_of_free st h hl hfree
  unfold socket_open
  rw [hsup]
  cases hfr : findFreeIdx st with
  | none => rw [hfr] at hsome; exact absurd hsome (by simp)
  | some i => simp

/-- C2 counterexample: the claim says `socket_close` never reports
failure to the caller, but when the teardown hook `socket_close_impl`
fails the adapter returns that error code: with hooks whose teardown
always returns `NSAPI_ERROR_DEVICE_ERROR` and a created socket in slot
0, close returns the device error, not `NSAPI_ERROR_OK` — even though
the slot is still freed. -/
theorem c2_close_counterexample :
    (socket_close failCloseHooks [some wCreatedSock] 0).ret = NSAPI_ERROR_DEVICE_ERROR ∧
    (socket_close failCloseHooks [some wCreatedSock] 0).ret ≠ NSAPI_ERROR_OK ∧
    (socket_close failCloseHooks [some wCreatedSock] 0).st = [none] := by
  refine ⟨rfl, by decide, rfl⟩

/-- C2 (amended): `socket_close` on any occupied slot frees the slot
unconditionally — even when the teardown hook `socket_close_impl`
returns an error — so a subsequent `socket_open` (with any supported
protocol) succeeds and can reuse the slot; however close returns the
teardown hook's error code to the caller when teardown fails (and
success otherwise), so from the caller's perspective close can report
failure. -/
theorem c2_close_frees_unconditionally (H : DeviceHooks) (st : State) (h : Nat)
    (s : CellularSocket) (proto : nsapi_protocol_t)
    (hs : getSlot st h = some s) (hsup : H.is_protocol_supported proto = true) :
    (socket_close H st h).st = setSlot st h none ∧
    getSlot (socket_close H st h).st h = none ∧
    (socket_close H st h).ret
      = (if s.created then H.socket_close_impl s.id else NSAPI_ERROR_OK) ∧
    (socket_close H st h).calls
      = (if s.created then [HookCall.close s.id] else []) ∧
    (socket_open H (socket_close H st h).st proto).code = NSAPI_ERROR_OK := by
  have hlt := getSlot_lt_length st h s hs
  have hst : (socket_close H st h).st = setSlot st h none := by
    unfold socket_close
    rw [hs]
    by_cases hc : s.created <;> simp [hc]
  have hfree : getSlot (socket_close H st h).st h = none := by
    rw [hst]
    exact getSlot_setSlot_self st h none hlt
  refine ⟨hst, hfree, ?_, ?_, ?_⟩
  · unfold socket_close
    rw [hs]
    by_cases hc : s.created <;> simp [hc]
  · unfold socket_close
    rw [hs]
    by_cases hc : s.created <;> simp [hc]
  · have hlen : h < (socket_close H st h).st.length := by
      rw [hst, length_setSlot]
      exact hlt
    exact socket_open_succeeds_of_free H _ proto h hlen hfree hsup

theorem c2_close_frees_unconditionally_witness :
    (socket_close failCloseHooks [some wCreatedSock] 0).st
      = setSlot [some wCreatedSock] 0 none ∧
    getSlot (socket_close failCloseHooks [some wCreatedSock] 0).st 0 = none ∧
    (socket_close failCloseHooks [some wCreatedSock] 0).ret
      = (if wCreatedSock.created then failCloseHooks.socket_close_impl wCreatedSock.id
         else NSAPI_ERROR_OK) ∧
    (socket_close failCloseHooks [some wCreatedSock] 0).calls
      = (if wCreatedSock.created then [HookCall.close wCreatedSock.id] else []) ∧
    (socket_open failCloseHooks (socket_close failCloseHooks [some wCreatedSock] 0).st
        nsapi_protocol_t.NSAPI_UDP).code = NSAPI_ERROR_OK :=
  c2_close_frees_unconditionally failCloseHooks [some wCreatedSock] 0 wCreatedSock
    nsapi_protocol_t.NSAPI_UDP rfl rfl

/-- C8: `socket_bind` records only the slot's local endpoint: it
succeeds, performs no create/destroy/transfer hook call, rewrites the
slot to the same record with only `localAddress` replaced (so `id`,
`created`, `connected`, `proto`, `remoteAddress`, the callback and
`rx_avail` are unchanged), and leaves every other slot untouched. -/
theorem c8_bind_records_local_only (H : DeviceHooks) (st : State) (h : Nat)
    (s : CellularSocket) (address : SocketAddress)
    (hs : getSlot st h = some s) :
    (socket_bind H st h address).ret = NSAPI_ERROR_OK ∧
    (socket_bind H st h address).calls = [] ∧
    getSlot (socket_bind H st h address).st h
      = some { s with localAddress := some address } ∧
    (∀ h2, h2 ≠ h → getSlot (socket_bind H st h address).st h2 = getSlot st h2) := by
  have hlt := getSlot_lt_length st h s hs
  refine ⟨?_, ?_, ?_, ?_⟩
  · unfold socket_bind; rw [hs]
  · unfold socket_bind; rw [hs]
  · unfold socket_bind
    rw [hs]
    exact getSlot_setSlot_self st h _ hlt
  · intro h2 hne
    unfold socket_bind
    rw [hs]
    exact getSlot_setSlot_ne st h h2 _ (fun he => hne he.symm)

theorem c8_bind_records_local_only_witness :
    (socket_bind wHooks [some wCreatedSock] 0 ⟨5, 7⟩).ret = NSAPI_ERROR_OK ∧
    (socket_bind wHooks [some wCreatedSock] 0 ⟨5, 7⟩).calls = [] ∧
    getSlot (socket_bind wHooks [some wCreatedSock] 0 ⟨5, 7⟩).st 0
      = some { wCreatedSock with localAddress := some ⟨5, 7⟩ } ∧
    (∀ h2, h2 ≠ 0 → getSlot (socket_bind wHooks [some wCreatedSock] 0 ⟨5, 7⟩).st h2
      = getSlot [some wCreatedSock] h2) :=
  c8_bind_records_local_only wHooks [some wCreatedSock] 0 wCreatedSock ⟨5, 7⟩ rfl

theorem findFreeIdx_sound : ∀ (st : State) (i : Nat),
    findFreeIdx st = some i → i < st.length ∧ getSlot st i = none := by
  intro st
  induction st with
  | nil => intro i hi; exact absurd hi (by simp [findFreeIdx])
  | cons o rest ih =>
    intro i hi
    cases o with
    | none =>
      have : i = 0 := by simpa [findFreeIdx] using hi.symm
      subst this
      exact ⟨Nat.zero_lt_succ _, rfl⟩
    | some s =>
      cases hfr : findFreeIdx rest with
      | none => rw [show findFreeIdx (some s :: rest) = (findFreeIdx rest).map (· + 1) from rfl, hfr] at hi; exact absurd hi (by simp)
      | some j =>
        rw [show findFreeIdx (some s :: rest) = (findFreeIdx rest).map (· + 1) from rfl, hfr] at hi
        have hij : i = j + 1 := by simpa using hi.symm
        subst hij
        obtain ⟨hlt, hfree⟩ := ih j hfr
        exact ⟨Nat.succ_lt_succ hlt, hfree⟩

/-- C5: `socket_open` reserves a slot with `created = false` and calls
no device hook (in particular never `create_socket_impl`);
`socket_connect` on a not-yet-created slot triggers exactly one
`create_socket_impl` call, and sets `connected = true`, `created = true`
and the remote address only when creation succeeds — on a creation
failure the whole table (hence the slot's `connected` flag and remote
address) is left unchanged and the hook's error is returned. -/
theorem c5_open_reserves_connect_creates (H : DeviceHooks) (st : State)
    (proto : nsapi_protocol_t) :
    (socket_open H st proto).calls = [] ∧
    (freshSocket proto).created = false ∧
    (∀ i, (socket_open H st proto).handle = some i →
      getSlot (socket_open H st proto).st i = some (freshSocket proto)) ∧
    (∀ h s address, getSlot st h = some s → s.created = false →
      (socket_connect H st h address).calls = [HookCall.create s.proto] ∧
      (∀ e, H.create_socket_impl s.proto = Except.error e →
        (socket_connect H st h address).ret = e ∧
        (socket_connect H st h address).st = st) ∧
      (∀ devid, H.create_socket_impl s.proto = Except.ok devid →
        (socket_connect H st h address).ret = NSAPI_ERROR_OK ∧
        getSlot (socket_connect H st h address).st h
          = some { s with id := devid, created := true, connected := true,
                          remoteAddress := some address })) := by
  refine ⟨?_, rfl, ?_, ?_⟩
  · unfold socket_open
    by_cases hsup : H.is_protocol_supported proto
    · cases hfr : findFreeIdx st <;> simp [hsup, hfr]
    · simp [hsup]
  · intro i hi
    unfold socket_open at hi ⊢
    by_cases hsup : H.is_protocol_supported proto = true
    · rw [if_pos hsup] at hi ⊢
      cases hfr : findFreeIdx st with
      | none => rw [hfr] at hi; exact absurd hi (by simp)
      | some j =>
        rw [hfr] at hi
        have hij : j = i := by simpa using hi
        subst hij
        obtain ⟨hlt, _⟩ := findFreeIdx_sound st j hfr
        exact getSlot_setSlot_self st j _ hlt
    · rw [if_neg hsup] at hi
      exact absurd hi (by simp)
  · intro h s address hs hnc
    have hlt := getSlot_lt_length st h s hs
    refine ⟨?_, ?_, ?_⟩
    · unfold socket_connect
      rw [hs]
      simp only [hnc]
      cases hcr : H.create_socket_impl s.proto <;> simp [hcr]
    · intro e he
      unfold socket_connect
      rw [hs]
      simp only [hnc]
      rw [he]
      exact ⟨rfl, rfl⟩
    · intro devid hok
      unfold socket_connect
      rw [hs]
      simp only [hnc]
      rw [hok]
      simp only []
      exact ⟨rfl, getSlot_setSlot_self st h _ hlt⟩

theorem c5_open_reserves_connect_creates_witness :
    (socket_open wHooks [none] nsapi_protocol_t.NSAPI_TCP).calls = [] ∧
    getSlot (socket_open wHooks [none] nsapi_protocol_t.NSAPI_TCP).st 0
      = some (freshSocket nsapi_protocol_t.NSAPI_TCP) ∧
    (socket_connect wHooks [some wTcpFresh] 0 ⟨10, 80⟩).calls
      = [HookCall.create nsapi_protocol_t.NSAPI_TCP] ∧
    (socket_connect wHooks [some wTcpFresh] 0 ⟨10, 80⟩).ret = NSAPI_ERROR_OK ∧
    getSlot (socket_connect wHooks [some wTcpFresh] 0 ⟨10, 80⟩).st 0
      = some { wTcpFresh with id := 0, created := true, connected := true,
                              remoteAddress := some ⟨10, 80⟩ } := by
  have h1 := c5_open_reserves_connect_creates wHooks [none] nsapi_protocol_t.NSAPI_TCP
  have h2 := c5_open_reserves_connect_creates wHooks [some wTcpFresh] nsapi_protocol_t.NSAPI_TCP
  refine ⟨h1.1, h1.2.2.1 0 rfl, ?_, ?_, ?_⟩
  · exact (h2.2.2.2 0 wTcpFresh ⟨10, 80⟩ rfl rfl).1
  · exact ((h2.2.2.2 0 wTcpFresh ⟨10, 80⟩ rfl rfl).2.2 0 rfl).1
  · exact ((h2.2.2.2 0 wTcpFresh ⟨10, 80⟩ rfl rfl).2.2 0 rfl).2

/-- C6: on a connected slot, `socket_recv` performs exactly one
`socket_recvfrom_impl` poll — the statement holds for any value of the
slot's `rx_avail` flag, in particular when it is false; when the hook
has nothing to deliver it returns `NSAPI_ERROR_WOULD_BLOCK` (a result
distinct from the device-failure and state-violation errors) and clears
`rx_avail`; and it clears `rx_avail` whenever the hook reports no more
pending data. -/
theorem c6_recv_polls_once_wouldblock (st : State) (h : Nat) (s : CellularSocket)
    (size : Nat) (resp : RecvResult)
    (hs : getSlot st h = some s) (hconn : s.connected = true) :
    (socket_recv st h size resp).calls = [HookCall.recvfrom s.id size] ∧
    (resp = RecvResult.nothingPending →
      (socket_recv st h size resp).ret = NSAPI_ERROR_WOULD_BLOCK ∧
      getSlot (socket_recv st h size resp).st h = some { s with rx_avail := false }) ∧
    (∀ n, resp = RecvResult.data n false →
      (socket_recv st h size resp).ret = Int.ofNat n ∧
      getSlot (socket_recv st h size resp).st h = some { s with rx_avail := false }) ∧
    NSAPI_ERROR_WOULD_BLOCK ≠ NSAPI_ERROR_DEVICE_ERROR ∧
    NSAPI_ERROR_WOULD_BLOCK ≠ NSAPI_ERROR_NO_CONNECTION := by
  have hlt := getSlot_lt_length st h s hs
  refine ⟨?_, ?_, ?_, by decide, by decide⟩
  · unfold socket_recv
    rw [hs]
    simp only [hconn, if_true]
    cases resp <;> rfl
  · intro hresp
    subst hresp
    unfold socket_recv
    rw [hs]
    simp only [hconn, if_true]
    exact ⟨by trivial, getSlot_setSlot_self st h _ hlt⟩
  · intro n hresp
    subst hresp
    unfold socket_recv
    rw [hs]
    simp only [hconn, if_true]
    exact ⟨by trivial, getSlot_setSlot_self st h _ hlt⟩

theorem c6_recv_polls_once_wouldblock_witness :
    wConnSock.rx_avail = false ∧
    (socket_recv [some wConnSock] 0 32 RecvResult.nothingPending).calls
      = [HookCall.recvfrom wConnSock.id 32] ∧
    (socket_recv [some wConnSock] 0 32 RecvResult.nothingPending).ret
      = NSAPI_ERROR_WOULD_BLOCK ∧
    getSlot (socket_recv [some wConnSock] 0 32 RecvResult.nothingPending).st 0
      = some { wConnSock with rx_avail := false } :=
  ⟨rfl,
   (c6_recv_polls_once_wouldblock [some wConnSock] 0 wConnSock 32
      RecvResult.nothingPending rfl rfl).1,
   ((c6_recv_polls_once_wouldblock [some wConnSock] 0 wConnSock 32
      RecvResult.nothingPending rfl rfl).2.1 rfl).1,
   ((c6_recv_polls_once_wouldblock [some wConnSock] 0 wConnSock 32
      RecvResult.nothingPending rfl rfl).2.1 rfl).2⟩

/-- C9: asynchronous data-availability notification delivery performs no
device-hook call — and since every create/destroy/transfer hook call is
one exclusive acquisition of the serialized command channel, it never
acquires the channel and so cannot deadlock against an in-progress
exchange holding it; it only sets the slot's `rx_avail` flag and yields
the callback registered via `socket_attach` (which itself performs no
hook call either). -/
theorem c9_notify_no_channel_acquisition (st : State) (h : Nat) (tok : Nat) :
    (notify_data_available st h).2.2 = [] ∧
    (socket_attach st h tok).2 = [] ∧
    (∀ s, getSlot st h = some s →
      (notify_data_available st h).1 = setSlot st h (some { s with rx_avail := true }) ∧
      (notify_data_available st h).2.1 = s.cb) ∧
    (∀ s, getSlot st h = some s →
      (notify_data_available (socket_attach st h tok).1 h).2.1 = some tok ∧
      (notify_data_available (socket_attach st h tok).1 h).2.2 = []) := by
  refine ⟨?_, ?_, ?_, ?_⟩
  · unfold notify_data_available
    cases hg : getSlot st h <;> rfl
  · unfold socket_attach
    cases hg : getSlot st h <;> rfl
  · intro s hs
    unfold notify_data_available
    rw [hs]
    exact ⟨rfl, rfl⟩
  · intro s hs
    have hlt := getSlot_lt_length st h s hs
    have hatt : (socket_attach st h tok).1 = setSlot st h (some { s with cb := some tok }) := by
      unfold socket_attach
      rw [hs]
    have hget : getSlot (socket_attach st h tok).1 h = some { s with cb := some tok } := by
      rw [hatt]
      exact getSlot_setSlot_self st h _ hlt
    constructor
    · unfold notify_data_available
      rw [hget]
    · unfold notify_data_available
      rw [hget]

theorem c9_notify_no_channel_acquisition_witness :
    (notify_data_available [some wConnSock] 0).2.2 = [] ∧
    (notify_data_available (socket_attach [some wConnSock] 0 42).1 0).2.1 = some 42 :=
  ⟨(c9_notify_no_channel_acquisition [some wConnSock] 0 42).1,
   ((c9_notify_no_channel_acquisition [some wConnSock] 0 42).2.2.2 wConnSock rfl).1⟩

theorem sendto_fragments_calls_ne_nil (maxPkt : Nat) (sock_id : Int)
    (r : Int) (rest : List Int) (n : Nat) (acc : Nat) :
    (sendto_fragments maxPkt sock_id (r :: rest) (n + 1) acc).2 ≠ [] := by
  unfold sendto_fragments
  by_cases h1 : r < ((min maxPkt (n + 1) : Nat) : Int)
  · rw [if_pos h1]
    by_cases h2 : r < 0
    · rw [if_pos h2]
      by_cases h3 : 0 < acc
      · rw [if_pos h3]; simp
      · rw [if_neg h3]; simp
    · rw [if_neg h2]; simp
  · rw [if_neg h1]; simp

theorem sendto_core_calls_ne_nil (H : DeviceHooks) (st : State) (h : Nat)
    (s : CellularSocket) (r : Int) (rest : List Int) (n : Nat) :
    (sendto_core H st h s (n + 1) (r :: rest)).calls ≠ [] := by
  unfold sendto_core
  by_cases hc : s.created
  · simp only [hc, if_true]
    exact sendto_fragments_calls_ne_nil H.get_max_packet_size s.id r rest n 0
  · simp only [hc, if_false]
    cases hcr : H.create_socket_impl s.proto <;> simp

/-- C4: on a TCP slot that was never connected (`connected = false`),
`socket_send` and `socket_recv` fail immediately with the
state-violation error `NSAPI_ERROR_NO_CONNECTION`, invoke no
data-transfer hook and leave the table unchanged; once `socket_connect`
succeeds on that slot, the slot is marked connected, `socket_recv`
proceeds to the device hook (one poll), and `socket_send` of a nonempty
buffer performs device-hook calls. -/
theorem c4_send_recv_need_connected (H : DeviceHooks) (st : State) (h : Nat)
    (s : CellularSocket) (size : Nat) (responses : List Int) (resp : RecvResult)
    (hwf : WfHooks H)
    (hs : getSlot st h = some s) (htcp : s.proto = nsapi_protocol_t.NSAPI_TCP) :
    (s.connected = false →
      (socket_send H st h size responses).ret = NSAPI_ERROR_NO_CONNECTION ∧
      (socket_send H st h size responses).calls = [] ∧
      (socket_send H st h size responses).st = st ∧
      (socket_recv st h size resp).ret = NSAPI_ERROR_NO_CONNECTION ∧
      (socket_recv st h size resp).calls = []) ∧
    (∀ address, (socket_connect H st h address).ret = NSAPI_ERROR_OK →
      ∃ s2, getSlot (socket_connect H st h address).st h = some s2 ∧
        s2.connected = true ∧
        (socket_recv (socket_connect H st h address).st h size resp).calls
          = [HookCall.recvfrom s2.id size] ∧
        (∀ (r : Int) (rs : List Int) (m : Nat),
          (socket_send H (socket_connect H st h address).st h (m + 1) (r :: rs)).calls
            ≠ [])) := by
  have hlt := getSlot_lt_length st h s hs
  constructor
  · intro hnc
    have hsend : socket_send H st h size responses
        = ⟨NSAPI_ERROR_NO_CONNECTION, st, []⟩ := by
      unfold socket_send
      rw [hs]
      simp [hnc]
    have hrecv : socket_recv st h size resp = ⟨NSAPI_ERROR_NO_CONNECTION, st, []⟩ := by
      unfold socket_recv
      rw [hs]
      simp [hnc]
    rw [hsend, hrecv]
    exact ⟨rfl, rfl, rfl, rfl, rfl⟩
  · intro address hok
    by_cases hc : s.created
    · refine ⟨{ s with connected := true, remoteAddress := some address }, ?_, rfl, ?_, ?_⟩
      · unfold socket_connect
        rw [hs]
        simp only [hc, if_true]
        exact getSlot_setSlot_self st h _ hlt
      · have hst : (socket_connect H st h address).st
            = setSlot st h (some { s with connected := true, remoteAddress := some address }) := by
          unfold socket_connect
          rw [hs]
          simp [hc]
        rw [hst]
        unfold socket_recv
        rw [getSlot_setSlot_self st h _ hlt]
        cases resp <;> rfl
      · intro r rs m
        have hst : (socket_connect H st h address).st
            = setSlot st h (some { s with connected := true, remoteAddress := some address }) := by
          unfold socket_connect
          rw [hs]
          simp [hc]
        rw [hst]
        unfold socket_send
        rw [getSlot_setSlot_self st h _ hlt]
        simp only [if_true]
        exact sendto_core_calls_ne_nil H _ h _ r rs m
    · cases hcr : H.create_socket_impl s.proto with
      | error e =>
        have hret : (socket_connect H st h address).ret = e := by
          unfold socket_connect
          rw [hs]
          simp [hc, hcr]
        have hneg := hwf.1 s.proto e hcr
        rw [hok] at hret
        rw [← hret] at hneg
        exact absurd hneg (by decide)
      | ok devid =>
        refine ⟨{ s with id := devid, created := true, connected := true,
                         remoteAddress := some address }, ?_, rfl, ?_, ?_⟩
        · unfold socket_connect
          rw [hs]
          simp only [hc, if_false, hcr]
          exact getSlot_setSlot_self st h _ hlt
        · have hst : (socket_connect H st h address).st
              = setSlot st h (some { s with id := devid, created := true, connected := true,
                                            remoteAddress := some address }) := by
            unfold socket_connect
            rw [hs]
            simp [hc, hcr]
          rw [hst]
          unfold socket_recv
          rw [getSlot_setSlot_self st h _ hlt]
          cases resp <;> rfl
        · intro r rs m
          have hst : (socket_connect H st h address).st
              = setSlot st h (some { s with id := devid, created := true, connected := true,
                                            remoteAddress := some address }) := by
            unfold socket_connect
            rw [hs]
            simp [hc, hcr]
          rw [hst]
          unfold socket_send
          rw [getSlot_setSlot_self st h _ hlt]
          simp only [if_true]
          exact sendto_core_calls_ne_nil H _ h _ r rs m

theorem c4_send_recv_need_connected_witness :
    wTcpFresh.connected = false ∧
    (socket_send wHooks [some wTcpFresh] 0 4 [4]).ret = NSAPI_ERROR_NO_CONNECTION ∧
    (socket_send wHooks [some wTcpFresh] 0 4 [4]).calls = [] ∧
    (socket_recv [some wTcpFresh] 0 4 RecvResult.nothingPending).ret
      = NSAPI_ERROR_NO_CONNECTION ∧
    (socket_recv [some wTcpFresh] 0 4 RecvResult.nothingPending).calls = [] := by
  have hwf : WfHooks wHooks :=
    ⟨fun p e he => Except.noConfusion he,
     fun p d hd => by injection hd with h1; omega⟩
  have hmain := (c4_send_recv_need_connected wHooks [some wTcpFresh] 0 wTcpFresh 4 [4]
      RecvResult.nothingPending hwf rfl rfl).1 rfl
  exact ⟨rfl, hmain.1, hmain.2.1, hmain.2.2.2.1, hmain.2.2.2.2⟩

theorem sendto_fragments_calls_le (maxPkt : Nat) (sock_id : Int) :
    ∀ (responses : List Int) (size acc : Nat) (c : HookCall),
      c ∈ (sendto_fragments maxPkt sock_id responses size acc).2 →
      ∃ k, k ≤ maxPkt ∧ c = HookCall.sendto sock_id k := by
  intro responses
  induction responses with
  | nil =>
    intro size acc c hc
    cases size with
    | zero => simp [sendto_fragments] at hc
    | succ n =>
      unfold sendto_fragments at hc
      by_cases h : 0 < acc <;> simp [h] at hc
  | cons r rest ih =>
    intro size acc c hc
    cases size with
    | zero => simp [sendto_fragments] at hc
    | succ n =>
      unfold sendto_fragments at hc
      by_cases h1 : r < ((min maxPkt (n + 1) : Nat) : Int)
      · rw [if_pos h1] at hc
        by_cases h2 : r < 0
        · rw [if_pos h2] at hc
          by_cases h3 : 0 < acc
          · rw [if_pos h3] at hc
            simp only [List.mem_singleton] at hc
            exact ⟨min maxPkt (n + 1), Nat.min_le_left _ _, hc⟩
          · rw [if_neg h3] at hc
            simp only [List.mem_singleton] at hc
            exact ⟨min maxPkt (n + 1), Nat.min_le_left _ _, hc⟩
        · rw [if_neg h2] at hc
          simp only [List.mem_singleton] at hc
          exact ⟨min maxPkt (n + 1), Nat.min_le_left _ _, hc⟩
      · rw [if_neg h1] at hc
        simp only [List.mem_cons] at hc
        cases hc with
        | inl h => exact ⟨min maxPkt (n + 1), Nat.min_le_left _ _, h⟩
        | inr h => exact ih _ _ c h

theorem sendto_fragments_sum (maxPkt : Nat) (sock_id : Int) :
    ∀ (responses : List Int) (size acc : Nat),
      0 ≤ (sendto_fragments maxPkt sock_id responses size acc).1 →
      (sendto_fragments maxPkt sock_id responses size acc).1
        = Int.ofNat (acc + ((responses.take
            (sendto_fragments maxPkt sock_id responses size acc).2.length).map
              Int.toNat).sum) := by
  intro responses
  induction responses with
  | nil =>
    intro size acc hpos
    cases size with
    | zero => simp [sendto_fragments]
    | succ n =>
      unfold sendto_fragments at hpos ⊢
      by_cases h : 0 < acc
      · rw [if_pos h]
        simp
      · rw [if_neg h] at hpos
        exact absurd hpos (by decide)
  | cons r rest ih =>
    intro size acc hpos
    cases size with
    | zero => simp [sendto_fragments]
    | succ n =>
      unfold sendto_fragments at hpos ⊢
      by_cases h1 : r < ((min maxPkt (n + 1) : Nat) : Int)
      · rw [if_pos h1] at hpos ⊢
        by_cases h2 : r < 0
        · rw [if_pos h2] at hpos ⊢
          by_cases h3 : 0 < acc
          · rw [if_pos h3]
            have hr0 : r.toNat = 0 := Int.toNat_eq_zero.mpr (le_of_lt h2)
            simp [hr0]
          · rw [if_neg h3] at hpos
            exact absurd hpos (not_le.mpr h2)
        · rw [if_neg h2]
          simp
      · rw [if_neg h1] at hpos ⊢
        have hih := ih (n + 1 - min maxPkt (n + 1)) (acc + r.toNat) hpos
        rw [hih]
        simp only [List.length_cons, List.take_succ_cons, List.map_cons, List.sum_cons]
        congr 1
        omega

theorem sendto_fragments_partial (maxPkt : Nat) (sock_id : Int) :
    ∀ (pre : List Int) (e : Int) (rest : List Int) (size acc : Nat),
      (∀ r ∈ pre, 0 ≤ r) → e < 0 →
      0 < acc + (pre.map Int.toNat).sum →
      0 ≤ (sendto_fragments maxPkt sock_id (pre ++ e :: rest) size acc).1 := by
  intro pre
  induction pre with
  | nil =>
    intro e rest size acc hpre he hpos
    cases size with
    | zero => simp [sendto_fragments]
    | succ n =>
      simp only [List.nil_append]
      unfold sendto_fragments
      have h1 : e < ((min maxPkt (n + 1) : Nat) : Int) :=
        lt_of_lt_of_le he (Int.ofNat_nonneg _)
      rw [if_pos h1, if_pos he]
      have hacc : 0 < acc := by simpa using hpos
      rw [if_pos hacc]
      exact Int.ofNat_nonneg acc
  | cons r pre2 ih =>
    intro e rest size acc hpre he hpos
    cases size with
    | zero => simp [sendto_fragments]
    | succ n =>
      have hr : 0 ≤ r := hpre r (List.mem_cons_self r pre2)
      simp only [List.cons_append]
      unfold sendto_fragments
      by_cases h1 : r < ((min maxPkt (n + 1) : Nat) : Int)
      · rw [if_pos h1, if_neg (not_lt.mpr hr)]
        exact Int.ofNat_nonneg _
      · rw [if_neg h1]
        apply ih e rest (n + 1 - min maxPkt (n + 1)) (acc + r.toNat)
          (fun x hx => hpre x (List.mem_cons_of_mem r hx)) he
        have hsum : ((r :: pre2).map Int.toNat).sum
            = r.toNat + (pre2.map Int.toNat).sum := by simp
        omega

theorem sendto_fragments_multi (maxPkt : Nat) (sock_id : Int)
    (r1 r2 : Int) (rest : List Int) (size : Nat)
    (hsize : maxPkt < size) (hr1 : (maxPkt : Int) ≤ r1) :
    2 ≤ (sendto_fragments maxPkt sock_id (r1 :: r2 :: rest) size 0).2.length := by
  cases size with
  | zero => exact absurd hsize (Nat.not_lt_zero maxPkt)
  | succ n =>
    have hchunk : min maxPkt (n + 1) = maxPkt := Nat.min_eq_left (le_of_lt hsize)
    unfold sendto_fragments
    have h1 : ¬ r1 < ((min maxPkt (n + 1) : Nat) : Int) := by
      rw [hchunk]
      exact not_lt.mpr hr1
    rw [if_neg h1]
    have hrem : ∃ m, n + 1 - min maxPkt (n + 1) = m + 1 := by
      refine ⟨n - maxPkt, ?_⟩
      rw [hchunk]
      omega
    obtain ⟨m, hm⟩ := hrem
    rw [hm]
    simp only [List.length_cons]
    have hne := sendto_fragments_calls_ne_nil maxPkt sock_id r2 rest m (0 + r1.toNat)
    have hlp := List.length_pos.mpr hne
    omega

/-- C3: fragmentation of `socket_sendto`/`socket_send` transfers.  Every
`socket_sendto_impl` call requests at most `get_max_packet_size` bytes;
whenever the loop returns a byte count (a non-negative result), that
count equals the accumulator plus the sum of the per-fragment byte
counts of exactly the hook responses consumed; if a fragment returns an
error after a wholly non-negative (successful) prefix whose counts are
not all zero, the caller receives the accumulated partial count — a
non-negative byte count, never an error; a buffer larger than the
maximum payload with full-size fragment results causes at least two
hook calls; and on a created slot `socket_sendto` is exactly this loop
(same result, same hook calls, unchanged table). -/
theorem c3_fragmented_send (maxPkt : Nat) (sock_id : Int) :
    (∀ (responses : List Int) (size acc : Nat) (c : HookCall),
       c ∈ (sendto_fragments maxPkt sock_id responses size acc).2 →
       ∃ k, k ≤ maxPkt ∧ c = HookCall.sendto sock_id k) ∧
    (∀ (responses : List Int) (size acc : Nat),
       0 ≤ (sendto_fragments maxPkt sock_id responses size acc).1 →
       (sendto_fragments maxPkt sock_id responses size acc).1
         = Int.ofNat (acc + ((responses.take
             (sendto_fragments maxPkt sock_id responses size acc).2.length).map
               Int.toNat).sum)) ∧
    (∀ (pre : List Int) (e : Int) (rest : List Int) (size acc : Nat),
       (∀ r ∈ pre, 0 ≤ r) → e < 0 → 0 < acc + (pre.map Int.toNat).sum →
       0 ≤ (sendto_fragments maxPkt sock_id (pre ++ e :: rest) size acc).1) ∧
    (∀ (r1 r2 : Int) (rest : List Int) (size : Nat),
       maxPkt < size → (maxPkt : Int) ≤ r1 →
       2 ≤ (sendto_fragments maxPkt sock_id (r1 :: r2 :: rest) size 0).2.length) ∧
    (∀ (H : DeviceHooks) (st : State) (h : Nat) (s : CellularSocket)
       (address : SocketAddress) (size : Nat) (responses : List Int),
       getSlot st h = some s → s.created = true →
       socket_sendto H st h address size responses
         = ⟨(sendto_fragments H.get_max_packet_size s.id responses size 0).1, st,
            (sendto_fragments H.get_max_packet_size s.id responses size 0).2⟩) := by
  refine ⟨sendto_fragments_calls_le maxPkt sock_id,
          sendto_fragments_sum maxPkt sock_id,
          sendto_fragments_partial maxPkt sock_id,
          fun r1 r2 rest size h1 h2 =>
            sendto_fragments_multi maxPkt sock_id r1 r2 rest size h1 h2,
          ?_⟩
  intro H st h s address size responses hs hc
  unfold socket_sendto sendto_core
  rw [hs]
  simp [hc]

theorem c3_fragmented_send_witness :
    (sendto_fragments 5 7 [5, 5] 10 0).1
      = Int.ofNat (0 + (([(5 : Int), 5].take
          (sendto_fragments 5 7 [5, 5] 10 0).2.length).map Int.toNat).sum) ∧
    0 ≤ (sendto_fragments 5 7 ([5] ++ (-3012) :: []) 10 0).1 ∧
    2 ≤ (sendto_fragments 5 7 [5, 5] 10 0).2.length := by
  have hmain := c3_fragmented_send 5 7
  exact ⟨hmain.2.1 [5, 5] 10 0 (by decide),
         hmain.2.2.1 [5] (-3012) [] 10 0 (by decide) (by decide) (by decide),
         hmain.2.2.2.1 5 5 [] 10 (by decide) (by decide)⟩

theorem getSlot_mem : ∀ (st : State) (h : Nat) (s : CellularSocket),
    getSlot st h = some s → some s ∈ st := by
  intro st
  induction st with
  | nil => intro h s hs; cases h <;> exact absurd hs (by simp [getSlot])
  | cons o rest ih =>
    intro h s hs
    cases h with
    | zero =>
      have ho : o = some s := hs
      rw [ho]
      exact List.mem_cons_self _ _
    | succ n => exact List.mem_cons_of_mem o (ih n s hs)

theorem mem_setSlot : ∀ (st : State) (i : Nat) (v o : Option CellularSocket),
    o ∈ setSlot st i v → o = v ∨ o ∈ st := by
  intro st
  induction st with
  | nil => intro i v o ho; exact Or.inr ho
  | cons a rest ih =>
    intro i v o ho
    cases i with
    | zero =>
      rcases List.mem_cons.mp ho with h | h
      · exact Or.inl h
      · exact Or.inr (List.mem_cons_of_mem a h)
    | succ n =>
      rcases List.mem_cons.mp ho with h | h
      · rw [h]; exact Or.inr (List.mem_cons_self a rest)
      · rcases ih n v o h with h2 | h2
        · exact Or.inl h2
        · exact Or.inr (List.mem_cons_of_mem a h2)

theorem stateInv_setSlot (st : State) (hinv : StateInv st) (i : Nat)
    (v : Option CellularSocket) (hv : slotOk v) : StateInv (setSlot st i v) := by
  intro o ho
  rcases mem_setSlot st i v o ho with h | h
  · rw [h]; exact hv
  · exact hinv o h

theorem slotOk_of_getSlot (st : State) (hinv : StateInv st) (h : Nat)
    (s : CellularSocket) (hs : getSlot st h = some s) :
    (s.connected = true → s.created = true) ∧ (s.created = true → 0 ≤ s.id) :=
  hinv (some s) (getSlot_mem st h s hs)

theorem slotOk_fresh (proto : nsapi_protocol_t) : slotOk (some (freshSocket proto)) := by
  refine ⟨fun hx => ?_, fun hx => ?_⟩ <;> simp [freshSocket] at hx

theorem protoPreserved_refl (st : State) : ProtoPreserved st st := by
  intro h s s2 h1 h2
  rw [h1] at h2
  injection h2 with h3
  rw [h3]

theorem protoPreserved_update (st : State) (i : Nat) (s s2 : CellularSocket)
    (hs : getSlot st i = some s) (hp : s2.proto = s.proto) :
    ProtoPreserved st (setSlot st i (some s2)) := by
  intro h t t2 h1 h2
  by_cases hih : i = h
  · subst hih
    rw [getSlot_setSlot_self st i _ (getSlot_lt_length st i s hs)] at h2
    injection h2 with h3
    rw [hs] at h1
    injection h1 with h4
    rw [← h3, ← h4]
    exact hp
  · rw [getSlot_setSlot_ne st i h _ hih, h1] at h2
    injection h2 with h3
    rw [h3]

theorem protoPreserved_set_free (st : State) (i : Nat)
    (hfree : getSlot st i = none) (v : Option CellularSocket) :
    ProtoPreserved st (setSlot st i v) := by
  intro h t t2 h1 h2
  by_cases hih : i = h
  · subst hih
    rw [hfree] at h1
    exact absurd h1 (by simp)
  · rw [getSlot_setSlot_ne st i h _ hih, h1] at h2
    injection h2 with h3
    rw [h3]

theorem protoPreserved_clear (st : State) (i : Nat) :
    ProtoPreserved st (setSlot st i none) := by
  intro h t t2 h1 h2
  by_cases hih : i = h
  · subst hih
    have hlt : i < (setSlot st i none).length := getSlot_lt_length _ i t2 h2
    rw [length_setSlot] at hlt
    rw [getSlot_setSlot_self st i none hlt] at h2
    exact absurd h2 (by simp)
  · rw [getSlot_setSlot_ne st i h _ hih, h1] at h2
    injection h2 with h3
    rw [h3]

theorem sendto_core_preserves (H : DeviceHooks) (hwf : WfHooks H) (st : State)
    (hinv : StateInv st) (h : Nat) (s : CellularSocket)
    (hs : getSlot st h = some s) (size : Nat) (responses : List Int) :
    StateInv (sendto_core H st h s size responses).st ∧
    ProtoPreserved st (sendto_core H st h s size responses).st := by
  unfold sendto_core
  by_cases hc : s.created = true
  · rw [if_pos hc]
    exact ⟨hinv, protoPreserved_refl st⟩
  · rw [if_neg hc]
    cases hcr : H.create_socket_impl s.proto with
    | error e => exact ⟨hinv, protoPreserved_refl st⟩
    | ok devid =>
      refine ⟨stateInv_setSlot st hinv h _ ?_, protoPreserved_update st h s _ hs rfl⟩
      exact ⟨fun _ => rfl, fun _ => hwf.2 s.proto devid hcr⟩

/-- C7 counterexample: the claimed per-slot invariant "a slot is either
entirely unused (free) or has `created = true` with a valid device id"
is not preserved by `socket_open`: it holds in the initial table, but
after one successful open the reserved slot is occupied with
`created = false` (the spec's own Free → Reserved → Created lifecycle),
so the invariant as claimed is violated. -/
theorem c7_invariant_counterexample :
    (∀ o ∈ initState oneSlotHooks, origSlotInvariant o = true) ∧
    ¬ (∀ o ∈ (socket_open oneSlotHooks (initState oneSlotHooks)
        nsapi_protocol_t.NSAPI_UDP).st, origSlotInvariant o = true) := by
  constructor
  · decide
  · decide

/-- C7 (amended): every adapter operation preserves the per-slot
invariant in the form the lifecycle allows: a slot is free, or reserved,
or created, where `connected = true` implies `created = true` and
`created = true` implies a valid (non-negative) device id — and under
any operation a slot that stays occupied keeps its protocol unchanged
(protocol immutability).  Hooks are assumed well formed (valid ids on
successful creation). -/
theorem c7_amended_invariants_preserved (H : DeviceHooks) (hwf : WfHooks H)
    (st : State) (hinv : StateInv st) :
    (∀ proto, StateInv (socket_open H st proto).st ∧
      ProtoPreserved st (socket_open H st proto).st) ∧
    (∀ h, StateInv (socket_close H st h).st ∧
      ProtoPreserved st (socket_close H st h).st) ∧
    (∀ h address, StateInv (socket_bind H st h address).st ∧
      ProtoPreserved st (socket_bind H st h address).st) ∧
    (∀ h address, StateInv (socket_connect H st h address).st ∧
      ProtoPreserved st (socket_connect H st h address).st) ∧
    (∀ h size responses, StateInv (socket_send H st h size responses).st ∧
      ProtoPreserved st (socket_send H st h size responses).st) ∧
    (∀ h address size responses, StateInv (socket_sendto H st h address size responses).st ∧
      ProtoPreserved st (socket_sendto H st h address size responses).st) ∧
    (∀ h size resp, StateInv (socket_recv st h size resp).st ∧
      ProtoPreserved st (socket_recv st h size resp).st) ∧
    (∀ h tok, StateInv (socket_attach st h tok).1 ∧
      ProtoPreserved st (socket_attach st h tok).1) ∧
    (∀ h, StateInv (notify_data_available st h).1 ∧
      ProtoPreserved st (notify_data_available st h).1) := by
  refine ⟨?_, ?_, ?_, ?_, ?_, ?_, ?_, ?_, ?_⟩
  · intro proto
    unfold socket_open
    by_cases hsup : H.is_protocol_supported proto = true
    · rw [if_pos hsup]
      cases hfr : findFreeIdx st with
      | none => exact ⟨hinv, protoPreserved_refl st⟩
      | some i =>
        obtain ⟨hlt, hfree⟩ := findFreeIdx_sound st i hfr
        exact ⟨stateInv_setSlot st hinv i _ (slotOk_fresh proto),
               protoPreserved_set_free st i hfree _⟩
    · rw [if_neg hsup]
      exact ⟨hinv, protoPreserved_refl st⟩
  · intro h
    unfold socket_close
    cases hg : getSlot st h with
    | none => exact ⟨hinv, protoPreserved_refl st⟩
    | some s =>
      dsimp only
      by_cases hc : s.created = true
      · rw [if_pos hc]
        exact ⟨stateInv_setSlot st hinv h none trivial, protoPreserved_clear st h⟩
      · rw [if_neg hc]
        exact ⟨stateInv_setSlot st hinv h none trivial, protoPreserved_clear st h⟩
  · intro h address
    unfold socket_bind
    cases hg : getSlot st h with
    | none => exact ⟨hinv, protoPreserved_refl st⟩
    | some s =>
      dsimp only
      have hok := slotOk_of_getSlot st hinv h s hg
      exact ⟨stateInv_setSlot st hinv h _ hok, protoPreserved_update st h s _ hg rfl⟩
  · intro h address
    unfold socket_connect
    cases hg : getSlot st h with
    | none => exact ⟨hinv, protoPreserved_refl st⟩
    | some s =>
      dsimp only
      have hok := slotOk_of_getSlot st hinv h s hg
      by_cases hc : s.created = true
      · rw [if_pos hc]
        refine ⟨stateInv_setSlot st hinv h _ ?_, protoPreserved_update st h s _ hg rfl⟩
        exact ⟨fun _ => hc, hok.2⟩
      · rw [if_neg hc]
        cases hcr : H.create_socket_impl s.proto with
        | error e => exact ⟨hinv, protoPreserved_refl st⟩
        | ok devid =>
          dsimp only
          refine ⟨stateInv_setSlot st hinv h _ ?_, protoPreserved_update st h s _ hg rfl⟩
          exact ⟨fun _ => rfl, fun _ => hwf.2 s.proto devid hcr⟩
  · intro h size responses
    unfold socket_send
    cases hg : getSlot st h with
    | none => exact ⟨hinv, protoPreserved_refl st⟩
    | some s =>
      dsimp only
      by_cases hcn : s.connected = true
      · rw [if_pos hcn]
        exact sendto_core_preserves H hwf st hinv h s hg size responses
      · rw [if_neg hcn]
        exact ⟨hinv, protoPreserved_refl st⟩
  · intro h address size responses
    unfold socket_sendto
    cases hg : getSlot st h with
    | none => exact ⟨hinv, protoPreserved_refl st⟩
    | some s => exact sendto_core_preserves H hwf st hinv h s hg size responses
  · intro h size resp
    unfold socket_recv
    cases hg : getSlot st h with
    | none => exact ⟨hinv, protoPreserved_refl st⟩
    | some s =>
      dsimp only
      have hok := slotOk_of_getSlot st hinv h s hg
      by_cases hcn : s.connected = true
      · rw [if_pos hcn]
        cases resp with
        | error c => exact ⟨hinv, protoPreserved_refl st⟩
        | nothingPending =>
          exact ⟨stateInv_setSlot st hinv h _ hok, protoPreserved_update st h s _ hg rfl⟩
        | data n more =>
          exact ⟨stateInv_setSlot st hinv h _ hok, protoPreserved_update st h s _ hg rfl⟩
      · rw [if_neg hcn]
        exact ⟨hinv, protoPreserved_refl st⟩
  · intro h tok
    unfold socket_attach
    cases hg : getSlot st h with
    | none => exact ⟨hinv, protoPreserved_refl st⟩
    | some s =>
      dsimp only
      have hok := slotOk_of_getSlot st hinv h s hg
      exact ⟨stateInv_setSlot st hinv h _ hok, protoPreserved_update st h s _ hg rfl⟩
  · intro h
    unfold notify_data_available
    cases hg : getSlot st h with
    | none => exact ⟨hinv, protoPreserved_refl st⟩
    | some s =>
      dsimp only
      have hok := slotOk_of_getSlot st hinv h s hg
      exact ⟨stateInv_setSlot st hinv h _ hok, protoPreserved_update st h s _ hg rfl⟩

theorem c7_amended_invariants_preserved_witness :
    StateInv (socket_open wHooks (initState wHooks) nsapi_protocol_t.NSAPI_UDP).st ∧
    ProtoPreserved (initState wHooks)
      (socket_open wHooks (initState wHooks) nsapi_protocol_t.NSAPI_UDP).st :=
  (c7_amended_invariants_preserved wHooks
    ⟨fun p e he => Except.noConfusion he,
     fun p d hd => by injection hd with h1; omega⟩
    (initState wHooks)
    (fun o ho => by rw [List.eq_of_mem_replicate ho]; trivial)).1
    nsapi_protocol_t.NSAPI_UDP
